import Mathlib

/-!
# Verification of `porkbun-ddns.py`

A shallow embedding of the dynamic-DNS updater `porkbun-ddns.py` and proofs
of its specified properties.  The program is three sequential HTTP calls
gated by an equality check, with flat-file JSON configuration persistence.

Modelling conventions:
* The configuration document is a flat JSON object; its values are JSON
  scalars (`JVal`).  Python dictionaries preserve insertion order, so the
  document is an association list.
* HTTP responses are inputs to the embedded functions: the body text of the
  IP-echo GET and the status code of the DNS-edit POST are parameters.
* Side effects (the POST requests issued, the config file written) are
  returned as data in `RunResult`.
* A Python `KeyError` is `Except.error` carrying the missing key; an
  uncaught exception aborts the interpreter abnormally.
-/

namespace PorkbunDdns

/-- A JSON scalar value: the value type of the flat configuration document. -/
inductive JVal where
  | jnull : JVal
  | jbool : Bool → JVal
  | jint : Int → JVal
  | jstr : String → JVal
deriving DecidableEq, Repr

/-- The in-memory configuration document: a flat JSON object, modelled as an
association list from keys to scalar values. -/
abbrev Config := List (String × JVal)

/-- Python dictionary lookup `d[k]`: the value, or a `KeyError` carrying the
missing key. -/
def pyGet : Config → String → Except String JVal
  | [], k => .error k
  | (k2, v) :: rest, k => if k2 = k then .ok v else pyGet rest k

/-- Python dictionary assignment `d[k] = v`: replace the value in place if the
key exists, append the pair otherwise. -/
def setKey : Config → String → JVal → Config
  | [], k, v => [(k, v)]
  | (k2, v2) :: rest, k, v =>
    if k2 = k then (k, v) :: rest else (k2, v2) :: setKey rest k v

/-- Python truthiness of a JSON scalar, as used by `if uuid:`. -/
def truthy : JVal → Bool
  | .jnull => false
  | .jbool b => b
  | .jint n => n != 0
  | .jstr s => s != ""

/-- The decimal digit character for `d` (`d < 10`; clipped at `9` above). -/
def decDigit (d : Nat) : Char :=
  if d = 0 then '0' else if d = 1 then '1' else if d = 2 then '2'
  else if d = 3 then '3' else if d = 4 then '4' else if d = 5 then '5'
  else if d = 6 then '6' else if d = 7 then '7' else if d = 8 then '8'
  else '9'

/-- Little-endian decimal digits of `n`, with explicit fuel so that the
definition is structurally recursive (the fuel `n + 1` always suffices). -/
def revDigitCharsAux : Nat → Nat → List Char
  | 0, _ => []
  | fuel + 1, n =>
    if n < 10 then [decDigit n] else decDigit (n % 10) :: revDigitCharsAux fuel (n / 10)

/-- The decimal rendering of a natural number, as Python `str` writes it. -/
def natChars (n : Nat) : List Char := (revDigitCharsAux (n + 1) n).reverse

/-- The decimal rendering of an integer, as Python `str` writes it. -/
def intChars (n : Int) : List Char :=
  if n < 0 then '-' :: natChars n.natAbs else natChars n.natAbs

/-- Python `str()` of a JSON scalar, as interpolated by an f-string. -/
def pyStr : JVal → String
  | .jnull => "None"
  | .jbool true => "True"
  | .jbool false => "False"
  | .jint n => ⟨intChars n⟩
  | .jstr s => s

/-- Python `current_ip != last_ip` where `current_ip` is a `str` and
`last_ip` an arbitrary JSON scalar: values of different types are unequal. -/
def pyStrNe (s : String) (v : JVal) : Bool :=
  match v with
  | .jstr t => s != t
  | _ => true

/-- Python `str` whitespace, the character class stripped by `str.rstrip()`
(restricted to ASCII; the configuration and IP bodies are ASCII). -/
def isPySpace (c : Char) : Bool :=
  c.toNat = 32 || c.toNat = 9 || c.toNat = 10 || c.toNat = 13 ||
    c.toNat = 11 || c.toNat = 12

/-- Python `s.rstrip()`: remove trailing whitespace characters only. -/
def rstrip (s : String) : String :=
  ⟨(s.data.reverse.dropWhile isPySpace).reverse⟩

/-- `get_ip`: the body of the GET to the IP-echo endpoint, with `rstrip()`
applied.  The response body is a parameter of the embedding. -/
def get_ip (responseText : String) : String := rstrip responseText

/-- Modelled from the words of the spec for comparison: stripping the
*surrounding* (leading and trailing) whitespace of the body. -/
def strip_both (s : String) : String :=
  ⟨((s.data.dropWhile isPySpace).reverse.dropWhile isPySpace).reverse⟩

/-- The fixed API base URL of `edit_record`. -/
def api_base_url : String := "https://api-ipv4.porkbun.com/api/json/v3"

/-- A record-edit POST issued by `edit_record`: its URL and its JSON payload
(the payload is kept structured; the source serialises it with `json.dumps`). -/
structure EditCall where
  url : String
  payload : Config
deriving DecidableEq, Repr

/-- `edit_record(domain, data)`: builds the record-edit URL for the A record
of `domain`, issues one POST with payload `data`, and returns whether the
response status code is `200`.  The status code the provider answers with is
a parameter; the call issued is returned alongside the boolean. -/
def edit_record (domain : JVal) (data : Config) (statusCode : Nat) :
    Bool × EditCall :=
  (statusCode == 200,
   { url := api_base_url ++ "/dns/editByNameType/" ++ pyStr domain ++ "/A/",
     payload := data })

/-- A liveness POST issued by `ping_healthchecks`: its URL and request body. -/
structure PingCall where
  url : String
  body : String
deriving DecidableEq, Repr

/-- `ping_healthchecks(uuid, body)`: one POST to the monitoring endpoint
templated with `uuid`, carrying `body`. -/
def ping_healthchecks (uuid : JVal) (body : String) : PingCall :=
  { url := "https://hc-ping.com/" ++ pyStr uuid, body := body }

/-- The observable outcome of one completed run of `main`: the value it
returns, the record-edit POSTs issued, the configuration passed to
`save_config` (if any), and the liveness POSTs issued. -/
structure RunResult where
  exitCode : Nat
  editCalls : List EditCall
  saved : Option Config
  pings : List PingCall
deriving DecidableEq, Repr

/-- `main()`: load the configuration, resolve the current IP, update the DNS
record if the IP changed, persist the configuration on success, ping the
monitoring endpoint when a UUID is configured.  `ipText` is the body of the
IP-echo response and `editStatus` the status code of the record-edit POST;
`Except.error k` is an uncaught `KeyError` on key `k`. -/
def main (config : Config) (ipText : String) (editStatus : Nat) :
    Except String RunResult :=
  match pyGet config "healthchecksUUID" with
  | .error k => .error k
  | .ok uuid =>
    match pyGet config "domain" with
    | .error k => .error k
    | .ok domain =>
      match pyGet config "lastIP" with
      | .error k => .error k
      | .ok last_ip =>
        let current_ip := get_ip ipText
        if pyStrNe current_ip last_ip then
          match pyGet config "apikey" with
          | .error k => .error k
          | .ok apikey =>
            match pyGet config "secretapikey" with
            | .error k => .error k
            | .ok secretapikey =>
              let data : Config :=
                [("apikey", apikey), ("secretapikey", secretapikey),
                 ("content", .jstr current_ip), ("ttl", .jint 600)]
              let body :=
                "Updating 'A' record for " ++ pyStr domain ++ " with " ++ current_ip
              let res := edit_record domain data editStatus
              if !res.1 then
                .ok { exitCode := 1, editCalls := [res.2], saved := none, pings := [] }
              else
                let config2 := setKey config "lastIP" (.jstr current_ip)
                .ok { exitCode := 0, editCalls := [res.2], saved := some config2,
                      pings := if truthy uuid then [ping_healthchecks uuid body] else [] }
        else
          .ok { exitCode := 0, editCalls := [], saved := none,
                pings := if truthy uuid then [ping_healthchecks uuid "No change"] else [] }

/-- The `__main__` guard: `main()` is called but its return value is
discarded, so a completed run exits the interpreter with status `0`
regardless of the value `main` returned; an uncaught exception terminates
abnormally (`none`). -/
def run_script (config : Config) (ipText : String) (editStatus : Nat) :
    Option Nat :=
  match main config ipText editStatus with
  | .ok _ => some 0
  | .error _ => none

/-! ## `save_config`: the JSON serialisation written to the file

`save_config` writes `json.dumps(config, indent=2)` to `config.json`,
opened in mode `"w"` (full overwrite).  The serialiser below models
`json.dumps` with `indent=2` and the default `ensure_ascii=True` on flat
objects of scalars. -/

/-- The lowercase hexadecimal digit character for `d < 16`. -/
def hexDigit (d : Nat) : Char :=
  if d < 10 then decDigit d
  else if d = 10 then 'a' else if d = 11 then 'b' else if d = 12 then 'c'
  else if d = 13 then 'd' else if d = 14 then 'e' else 'f'

/-- Four lowercase hex digits of `n < 0x10000`. -/
def hex4 (n : Nat) : List Char :=
  [hexDigit (n / 4096 % 16), hexDigit (n / 256 % 16),
   hexDigit (n / 16 % 16), hexDigit (n % 16)]

/-- The `\uXXXX` escape (with a surrogate pair above `0xFFFF`) for the code
point `n`, as `json.dumps` writes non-ASCII and control characters. -/
def uescape (n : Nat) : List Char :=
  if n < 0x10000 then '\\' :: 'u' :: hex4 n
  else
    let v := n - 0x10000
    ('\\' :: 'u' :: hex4 (0xD800 + v / 0x400)) ++ ('\\' :: 'u' :: hex4 (0xDC00 + v % 0x400))

/-- The JSON encoding of one string character, as `json.dumps` writes it:
the two-character escapes for quote, backslash and the common control
characters, `\uXXXX` for other control and all non-ASCII characters, and
the character itself otherwise. -/
def escChar (c : Char) : List Char :=
  if c.toNat = 34 then ['\\', '"']
  else if c.toNat = 92 then ['\\', '\\']
  else if c.toNat = 10 then ['\\', 'n']
  else if c.toNat = 9 then ['\\', 't']
  else if c.toNat = 13 then ['\\', 'r']
  else if c.toNat = 8 then ['\\', 'b']
  else if c.toNat = 12 then ['\\', 'f']
  else if c.toNat < 32 ∨ 127 ≤ c.toNat then uescape c.toNat
  else [c]

/-- The JSON encoding of a string: quote, escaped characters, quote. -/
def qstrChars (s : String) : List Char :=
  '"' :: ((s.data.map escChar).flatten ++ ['"'])

/-- The JSON encoding of a scalar value. -/
def dumpValChars : JVal → List Char
  | .jnull => ['n', 'u', 'l', 'l']
  | .jbool true => ['t', 'r', 'u', 'e']
  | .jbool false => ['f', 'a', 'l', 's', 'e']
  | .jint n => intChars n
  | .jstr s => qstrChars s

/-- One `indent=2` object member: newline, two spaces, key, colon, space,
value. -/
def memberChars (kv : String × JVal) : List Char :=
  '\n' :: ' ' :: ' ' :: (qstrChars kv.1 ++ ':' :: ' ' :: dumpValChars kv.2)

/-- All members, separated by commas. -/
def membersChars : Config → List Char
  | [] => []
  | [kv] => memberChars kv
  | kv :: rest => memberChars kv ++ ',' :: membersChars rest

/-- `json.dumps(config, indent=2)`. -/
def dumps (cfg : Config) : String :=
  match cfg with
  | [] => "{}"
  | _ => ⟨'{' :: (membersChars cfg ++ ['\n', '}'])⟩

/-- `save_config(config)`: the full content written to `config.json`. -/
def save_config (config : Config) : String := dumps config

/-- `save_config` acting on the file system: the file is opened with mode
`"w"`, so the previous content is discarded entirely. -/
def save_config_fs (config : Config) (_oldFile : Option String) : Option String :=
  some (save_config config)

/-- The configuration file after a run: rewritten by `save_config` exactly
when `main` reached the save, untouched otherwise. -/
def fileAfter (r : RunResult) (fs : Option String) : Option String :=
  match r.saved with
  | none => fs
  | some c => some (save_config c)

/-! ## `read_config`: the JSON parser

`read_config` is `json.load` on the configuration file, modelled for flat
objects of scalars.  The parser is recursive descent; the member loop
carries explicit fuel (the input length plus one always suffices, since
every member consumes at least one character). -/

/-- JSON whitespace (as skipped between tokens by `json.load`). -/
def wsChar (c : Char) : Bool :=
  c.toNat = 32 || c.toNat = 9 || c.toNat = 10 || c.toNat = 13

/-- Skip JSON whitespace. -/
def skipWs (l : List Char) : List Char := l.dropWhile wsChar

/-- Decode a two-character string escape (`\"` `\\` `\/` `\b` `\f` `\n`
`\t` `\r`). -/
def escDecode (e : Char) : Option Char :=
  if e.toNat = 34 then some '"'
  else if e.toNat = 92 then some '\\'
  else if e.toNat = 47 then some '/'
  else if e.toNat = 98 then some (Char.ofNat 8)
  else if e.toNat = 102 then some (Char.ofNat 12)
  else if e.toNat = 110 then some '\n'
  else if e.toNat = 116 then some '\t'
  else if e.toNat = 114 then some '\r'
  else none

/-- The value of one hexadecimal digit character. -/
def hexVal (c : Char) : Option Nat :=
  if 48 ≤ c.toNat ∧ c.toNat ≤ 57 then some (c.toNat - 48)
  else if 97 ≤ c.toNat ∧ c.toNat ≤ 102 then some (c.toNat - 87)
  else if 65 ≤ c.toNat ∧ c.toNat ≤ 70 then some (c.toNat - 55)
  else none

/-- The head and tail of a non-empty input. -/
def headTail (l : List Char) : Option (Char × List Char) :=
  match l with
  | [] => none
  | c :: rest => some (c, rest)

/-- Decode the escape sequence after a backslash: the decoded character and
the remaining input (two-character escapes, or `\uXXXX` for a valid scalar
code point). -/
def escSeq (l : List Char) : Option (Char × List Char) :=
  (headTail l).bind (fun he =>
    match escDecode he.1 with
    | some d => some (d, he.2)
    | none =>
      if he.1.toNat = 117 then
        match he.2 with
        | h1 :: h2 :: h3 :: h4 :: rest3 =>
          match hexVal h1, hexVal h2, hexVal h3, hexVal h4 with
          | some a, some b, some c2, some d2 =>
            let n := ((a * 16 + b) * 16 + c2) * 16 + d2
            if n < 0xD800 ∨ (0xE000 ≤ n ∧ n < 0x110000) then
              some (Char.ofNat n, rest3)
            else none
          | _, _, _, _ => none
        | _ => none
      else none)

/-- Parse a string body after the opening quote: the decoded characters and
the input after the closing quote.  `fuel` bounds the number of characters
(the input length always suffices, every step consuming at least one). -/
def parseStringBody : Nat → List Char → Option (List Char × List Char)
  | 0, _ => none
  | fuel + 1, l =>
    (headTail l).bind (fun hc =>
      if hc.1.toNat = 34 then some ([], hc.2)
      else if hc.1.toNat = 92 then
        (escSeq hc.2).bind (fun es =>
          (parseStringBody fuel es.2).map (fun p => (es.1 :: p.1, p.2)))
      else (parseStringBody fuel hc.2).map (fun p => (hc.1 :: p.1, p.2)))

/-- Parse a string body with the fuel the input length provides. -/
def parseString (l : List Char) : Option (List Char × List Char) :=
  parseStringBody l.length l

/-- Parse a run of decimal digits into an accumulator, returning the value
and the rest of the input. -/
def parseDigits : List Char → Nat → Nat × List Char
  | [], acc => (acc, [])
  | c :: rest, acc =>
    if c.isDigit then parseDigits rest (acc * 10 + (c.toNat - 48)) else (acc, c :: rest)

/-- Parse one scalar JSON value. -/
def parseValue (l : List Char) : Option (JVal × List Char) :=
  (headTail l).bind (fun hc =>
    if hc.1.toNat = 34 then
      (parseString hc.2).map (fun p => (JVal.jstr ⟨p.1⟩, p.2))
    else if hc.1.toNat = 116 then
      if hc.2.take 3 = ['r', 'u', 'e'] then some (.jbool true, hc.2.drop 3) else none
    else if hc.1.toNat = 102 then
      if hc.2.take 4 = ['a', 'l', 's', 'e'] then some (.jbool false, hc.2.drop 4) else none
    else if hc.1.toNat = 110 then
      if hc.2.take 3 = ['u', 'l', 'l'] then some (.jnull, hc.2.drop 3) else none
    else if hc.1.toNat = 45 then
      (headTail hc.2).bind (fun hd =>
        if hd.1.isDigit then
          some (.jint (-((parseDigits hc.2 0).1 : Int)), (parseDigits hc.2 0).2)
        else none)
    else if hc.1.isDigit then
      some (.jint ((parseDigits l 0).1 : Int), (parseDigits l 0).2)
    else none)

/-- Parse the members of a non-empty object, consuming the closing brace.
`fuel` bounds the number of members. -/
def parseMembers : Nat → List Char → Option (Config × List Char)
  | 0, _ => none
  | fuel + 1, l =>
    (headTail (skipWs l)).bind (fun hc =>
      if hc.1.toNat = 34 then
        (parseString hc.2).bind (fun ps =>
          (headTail (skipWs ps.2)).bind (fun h2 =>
            if h2.1.toNat = 58 then
              (parseValue (skipWs h2.2)).bind (fun pv =>
                (headTail (skipWs pv.2)).bind (fun h3 =>
                  if h3.1.toNat = 44 then
                    (parseMembers fuel h3.2).map
                      (fun pm => ((⟨ps.1⟩, pv.1) :: pm.1, pm.2))
                  else if h3.1.toNat = 125 then some ([(⟨ps.1⟩, pv.1)], h3.2)
                  else none))
            else none))
      else none)

/-- `read_config()`: `json.load` on the content of `config.json`, for a flat
object of scalars; `none` is a raised decode error. -/
def read_config (file : String) : Option Config :=
  (headTail (skipWs file.data)).bind (fun hc =>
    if hc.1.toNat = 123 then
      (headTail (skipWs hc.2)).bind (fun h2 =>
        if h2.1.toNat = 125 then (if skipWs h2.2 = [] then some [] else none)
        else
          (parseMembers (file.data.length + 1) hc.2).bind (fun pm =>
            if skipWs pm.2 = [] then some pm.1 else none))
    else none)

/-- Printable-ASCII characters: the fragment of strings for which the
round-trip statement is proved (no escape beyond `\"` and `\\` is emitted
for them). -/
def goodCharB (c : Char) : Bool := decide (32 ≤ c.toNat) && decide (c.toNat < 127)

/-- A string of printable-ASCII characters. -/
def goodStrB (s : String) : Bool := s.data.all goodCharB

/-- A scalar whose strings are printable ASCII. -/
def goodValB : JVal → Bool
  | .jstr s => goodStrB s
  | _ => true

/-- A configuration whose keys and string values are printable ASCII. -/
def goodCfgB (cfg : Config) : Bool :=
  cfg.all (fun kv => goodStrB kv.1 && goodValB kv.2)

/-! ## Concrete configurations for witnesses and counterexamples -/

/-- A complete configuration document. -/
def cfgFull : Config :=
  [("apikey", .jstr "pk1"), ("secretapikey", .jstr "sk1"),
   ("domain", .jstr "example.com"), ("lastIP", .jstr "1.2.3.4"),
   ("healthchecksUUID", .jstr "u-1")]

/-- A configuration without the credential keys. -/
def cfgNoCreds : Config :=
  [("domain", .jstr "example.com"), ("lastIP", .jstr "1.2.3.4"),
   ("healthchecksUUID", .jstr "u-1")]

/-- A configuration without the `healthchecksUUID` key. -/
def cfgNoUUID : Config :=
  [("apikey", .jstr "pk1"), ("secretapikey", .jstr "sk1"),
   ("domain", .jstr "example.com"), ("lastIP", .jstr "1.2.3.4")]

/-- A configuration whose `healthchecksUUID` is the empty string. -/
def cfgEmptyUUID : Config :=
  [("apikey", .jstr "pk1"), ("secretapikey", .jstr "sk1"),
   ("domain", .jstr "example.com"), ("lastIP", .jstr "1.2.3.4"),
   ("healthchecksUUID", .jstr "")]

/-- A configuration exercising every scalar kind and the string escapes. -/
def cfgRound : Config :=
  [("apikey", .jstr "pk \"1\" \\ x"), ("secretapikey", .jstr "sk1"),
   ("domain", .jstr "example.com"), ("lastIP", .jstr "1.2.3.4"),
   ("healthchecksUUID", .jstr "u-1"), ("n", .jint (-42)), ("m", .jint 600),
   ("b", .jbool true), ("c", .jbool false), ("z", .jnull)]

/-! ## General helper lemmas -/

theorem char_toNat_inj {a b : Char} (h : a.toNat = b.toNat) : a = b := by
  rw [← Char.ofNat_toNat a, ← Char.ofNat_toNat b, h]

theorem pyGet_setKey_self (cfg : Config) (k : String) (v : JVal) :
    pyGet (setKey cfg k v) k = .ok v := by
  induction cfg with
  | nil => simp [setKey, pyGet]
  | cons kv rest ih =>
    obtain ⟨k2, v2⟩ := kv
    by_cases h : k2 = k
    · simp [setKey, pyGet, h]
    · simp [setKey, pyGet, h, ih]

theorem head?_dropWhile_false {p : Char → Bool} {l : List Char} {x : Char}
    (h : (l.dropWhile p).head? = some x) : p x = false := by
  have := List.head?_dropWhile_not p l
  rw [h] at this
  exact this

/-! ## Decimal rendering and parsing -/

theorem isDigit_iff_toNat (c : Char) : c.isDigit = true ↔ 48 ≤ c.toNat ∧ c.toNat ≤ 57 := by
  simp [Char.isDigit, Char.le_def]
  constructor
  · intro ⟨h1, h2⟩
    exact ⟨h1, h2⟩
  · intro ⟨h1, h2⟩
    exact ⟨h1, h2⟩

theorem decDigit_toNat {d : Nat} (h : d < 10) : (decDigit d).toNat = 48 + d := by
  interval_cases d <;> decide

theorem decDigit_isDigit {d : Nat} (h : d < 10) : (decDigit d).isDigit = true := by
  interval_cases d <;> decide

theorem revDigitCharsAux_fuel (n : Nat) : ∀ f1 f2, n < f1 → n < f2 →
    revDigitCharsAux f1 n = revDigitCharsAux f2 n := by
  induction n using Nat.strong_induction_on with
  | _ n ih =>
    intro f1 f2 h1 h2
    match f1, f2 with
    | g1 + 1, g2 + 1 =>
      by_cases h10 : n < 10
      · simp [revDigitCharsAux, h10]
      · have hrec : n / 10 < n := Nat.div_lt_self (by omega) (by omega)
        simp only [revDigitCharsAux, h10, if_false]
        rw [ih (n / 10) hrec (g1) (g2) (by omega) (by omega)]

theorem natChars_lt {n : Nat} (h : n < 10) : natChars n = [decDigit n] := by
  simp [natChars, revDigitCharsAux, h]

theorem natChars_ge {n : Nat} (h : 10 ≤ n) :
    natChars n = natChars (n / 10) ++ [decDigit (n % 10)] := by
  unfold natChars
  have h1 : revDigitCharsAux (n + 1) n =
      decDigit (n % 10) :: revDigitCharsAux n (n / 10) := by
    simp [revDigitCharsAux, Nat.not_lt.mpr h]
  rw [h1, List.reverse_cons,
    revDigitCharsAux_fuel (n / 10) n (n / 10 + 1)
      (Nat.div_lt_self (by omega) (by omega)) (by omega)]

theorem natChars_all_digits (n : Nat) : ∀ c ∈ natChars n, c.isDigit = true := by
  induction n using Nat.strong_induction_on with
  | _ n ih =>
    by_cases h10 : n < 10
    · rw [natChars_lt h10]
      intro c hc
      simp at hc
      subst hc
      exact decDigit_isDigit (by omega)
    · rw [natChars_ge (by omega)]
      intro c hc
      rw [List.mem_append] at hc
      rcases hc with hc | hc
      · exact ih (n / 10) (Nat.div_lt_self (by omega) (by omega)) c hc
      · simp at hc
        subst hc
        exact decDigit_isDigit (Nat.mod_lt _ (by omega))

theorem natChars_ne_nil (n : Nat) : natChars n ≠ [] := by
  by_cases h10 : n < 10
  · rw [natChars_lt h10]
    simp
  · rw [natChars_ge (by omega)]
    simp

theorem valList_natChars (n : Nat) :
    (natChars n).foldl (fun a c => a * 10 + (c.toNat - 48)) 0 = n := by
  induction n using Nat.strong_induction_on with
  | _ n ih =>
    by_cases h10 : n < 10
    · rw [natChars_lt h10]
      simp [decDigit_toNat h10]
    · rw [natChars_ge (by omega), List.foldl_append]
      rw [ih (n / 10) (Nat.div_lt_self (by omega) (by omega))]
      simp [decDigit_toNat (Nat.mod_lt n (show 0 < 10 by omega))]
      omega

theorem parseDigits_append (l : List Char) : ∀ (acc : Nat) (rest : List Char),
    (∀ c ∈ l, c.isDigit = true) →
    parseDigits (l ++ rest) acc =
      parseDigits rest (l.foldl (fun a c => a * 10 + (c.toNat - 48)) acc) := by
  induction l with
  | nil => intro acc rest _; simp
  | cons c l2 ih =>
    intro acc rest hdig
    have hc : c.isDigit = true := hdig c (by simp)
    simp only [List.cons_append, parseDigits, hc, if_true, List.foldl_cons]
    exact ih _ rest (fun x hx => hdig x (by simp [hx]))

theorem parseDigits_stop (rest : List Char) (acc : Nat)
    (h : ∀ d, rest.head? = some d → d.isDigit = false) :
    parseDigits rest acc = (acc, rest) := by
  cases rest with
  | nil => simp [parseDigits]
  | cons d r =>
    have hd : d.isDigit = false := h d rfl
    simp [parseDigits, hd]

theorem parseDigits_natChars (n : Nat) (rest : List Char)
    (h : ∀ d, rest.head? = some d → d.isDigit = false) :
    parseDigits (natChars n ++ rest) 0 = (n, rest) := by
  rw [parseDigits_append (natChars n) 0 rest (natChars_all_digits n),
    valList_natChars, parseDigits_stop rest n h]

/-! ## String escaping and parsing -/

theorem escChar_plain {c : Char} (h1 : 32 ≤ c.toNat) (h2 : c.toNat < 127)
    (h3 : c.toNat ≠ 34) (h4 : c.toNat ≠ 92) : escChar c = [c] := by
  have ha : ¬ (c.toNat < 32 ∨ 127 ≤ c.toNat) := by omega
  simp [escChar, h3, h4, ha, show c.toNat ≠ 10 by omega, show c.toNat ≠ 9 by omega,
        show c.toNat ≠ 13 by omega, show c.toNat ≠ 8 by omega, show c.toNat ≠ 12 by omega]

theorem escChar_length_pos (c : Char) : 1 ≤ (escChar c).length := by
  simp only [escChar, uescape]
  split_ifs <;> simp

theorem length_le_flatten_escChar (l : List Char) :
    l.length ≤ ((l.map escChar).flatten).length := by
  induction l with
  | nil => simp
  | cons c l2 ih =>
    simp only [List.map_cons, List.flatten_cons, List.length_append, List.length_cons]
    have := escChar_length_pos c
    omega

theorem parseStringBody_escape (l : List Char) : ∀ (fuel : Nat) (rest : List Char),
    (∀ c ∈ l, goodCharB c = true) → l.length + 1 ≤ fuel →
    parseStringBody fuel ((l.map escChar).flatten ++ '"' :: rest) = some (l, rest) := by
  induction l with
  | nil =>
    intro fuel rest _ hfuel
    match fuel, hfuel with
    | f + 1, _ => simp [parseStringBody, headTail]
  | cons c l2 ih =>
    intro fuel rest hg hfuel
    have hc : goodCharB c = true := hg c (by simp)
    have hc2 : 32 ≤ c.toNat ∧ c.toNat < 127 := by
      simpa [goodCharB] using hc
    have hgl2 : ∀ x ∈ l2, goodCharB x = true := fun x hx => hg x (by simp [hx])
    match fuel, hfuel with
    | f + 1, hfuel =>
    have hf2 : l2.length + 1 ≤ f := by simp at hfuel; omega
    have hih := ih f rest hgl2 hf2
    by_cases h34 : c.toNat = 34
    · have hcq : c = '"' := char_toNat_inj (by rw [h34]; rfl)
      subst hcq
      simp only [List.map_cons, List.flatten_cons, List.append_assoc]
      rw [show escChar '"' = ['\\', '"'] by decide]
      simp [parseStringBody, headTail, escSeq, escDecode, hih]
    · by_cases h92 : c.toNat = 92
      · have hcb : c = '\\' := char_toNat_inj (by rw [h92]; rfl)
        subst hcb
        simp only [List.map_cons, List.flatten_cons, List.append_assoc]
        rw [show escChar '\\' = ['\\', '\\'] by decide]
        simp [parseStringBody, headTail, escSeq, escDecode, hih]
      · simp only [List.map_cons, List.flatten_cons, List.append_assoc]
        rw [escChar_plain hc2.1 hc2.2 h34 h92]
        simp [parseStringBody, headTail, h34, h92, hih]

theorem parseString_escape (l rest : List Char)
    (hg : ∀ c ∈ l, goodCharB c = true) :
    parseString ((l.map escChar).flatten ++ '"' :: rest) = some (l, rest) := by
  have h2 := length_le_flatten_escChar l
  apply parseStringBody_escape l _ rest hg
  rw [List.length_append, List.length_cons]
  omega

theorem string_mk_data (s : String) : (⟨s.data⟩ : String) = s := rfl

/-! ## Value round-trip -/

theorem parseValue_int (n : Int) (rest : List Char)
    (hrest : ∀ d, rest.head? = some d → d.isDigit = false) :
    parseValue (intChars n ++ rest) = some (.jint n, rest) := by
  have hpd := parseDigits_natChars n.natAbs rest hrest
  by_cases hneg : n < 0
  · simp only [intChars, hneg, if_true, List.cons_append]
    cases hnc : natChars n.natAbs with
    | nil => exact absurd hnc (natChars_ne_nil _)
    | cons c cs =>
      have hcd : c.isDigit = true := natChars_all_digits _ c (by rw [hnc]; simp)
      rw [hnc, List.cons_append] at hpd
      simp [parseValue, headTail, hcd, hpd]
      rw [abs_of_nonpos (by omega : n ≤ 0)]
      omega
  · simp only [intChars, hneg, if_false]
    cases hnc : natChars n.natAbs with
    | nil => exact absurd hnc (natChars_ne_nil _)
    | cons c cs =>
      have hcd : c.isDigit = true := natChars_all_digits _ c (by rw [hnc]; simp)
      have hbounds := (isDigit_iff_toNat c).mp hcd
      rw [hnc, List.cons_append] at hpd
      simp only [List.cons_append, parseValue, headTail, Option.bind_some]
      simp [hcd, hpd, show c.toNat ≠ 34 by omega, show c.toNat ≠ 116 by omega,
        show c.toNat ≠ 102 by omega, show c.toNat ≠ 110 by omega,
        show c.toNat ≠ 45 by omega]
      omega

theorem parseValue_dump (v : JVal) (rest : List Char)
    (hv : goodValB v = true)
    (hrest : ∀ d, rest.head? = some d → d.isDigit = false) :
    parseValue (dumpValChars v ++ rest) = some (v, rest) := by
  cases v with
  | jnull => simp [dumpValChars, parseValue, headTail]
  | jbool b => cases b <;> simp [dumpValChars, parseValue, headTail]
  | jint n => exact parseValue_int n rest hrest
  | jstr s =>
    have hg : ∀ c ∈ s.data, goodCharB c = true := by
      intro c hc
      have hv2 := hv
      simp [goodValB, goodStrB, List.all_eq_true] at hv2
      exact hv2 c hc
    have hps := parseString_escape s.data rest hg
    simp only [dumpValChars, qstrChars, List.cons_append, List.append_assoc,
      List.nil_append]
    simp [parseValue, headTail, hps, string_mk_data]

/-! ## Object round-trip -/

theorem skipWs_ws {c : Char} (h : wsChar c = true) (l : List Char) :
    skipWs (c :: l) = skipWs l := by
  simp [skipWs, List.dropWhile_cons, h]

theorem skipWs_not {c : Char} (h : wsChar c = false) (l : List Char) :
    skipWs (c :: l) = c :: l := by
  simp [skipWs, List.dropWhile_cons, h]

theorem wsChar_digit {c : Char} (h : c.isDigit = true) : wsChar c = false := by
  have hb := (isDigit_iff_toNat c).mp h
  simp [wsChar]
  omega

theorem skipWs_dumpVal (v : JVal) (t : List Char) :
    skipWs (dumpValChars v ++ t) = dumpValChars v ++ t := by
  cases v with
  | jnull => exact skipWs_not (by decide) _
  | jbool b => cases b <;> exact skipWs_not (by decide) _
  | jint n =>
    by_cases hneg : n < 0
    · simp only [dumpValChars, intChars, hneg, if_true, List.cons_append]
      exact skipWs_not (by decide) _
    · simp only [dumpValChars, intChars, hneg, if_false]
      cases hnc : natChars n.natAbs with
      | nil => exact absurd hnc (natChars_ne_nil _)
      | cons c cs =>
        have hcd : c.isDigit = true := natChars_all_digits _ c (by rw [hnc]; simp)
        simp only [List.cons_append]
        exact skipWs_not (wsChar_digit hcd) _
  | jstr s => exact skipWs_not (by decide) _

theorem parseMembers_step (f : Nat) (k : String) (v : JVal) (t : List Char)
    (hk : goodStrB k = true) (hv : goodValB v = true)
    (ht : ∀ d, t.head? = some d → d.isDigit = false) :
    parseMembers (f + 1) (memberChars (k, v) ++ t) =
      (headTail (skipWs t)).bind (fun h3 =>
        if h3.1.toNat = 44 then
          (parseMembers f h3.2).map (fun pm => ((k, v) :: pm.1, pm.2))
        else if h3.1.toNat = 125 then some ([(k, v)], h3.2)
        else none) := by
  have hgk : ∀ c ∈ k.data, goodCharB c = true := by
    simpa [goodStrB, List.all_eq_true] using hk
  have hps := parseString_escape k.data (':' :: ' ' :: (dumpValChars v ++ t)) hgk
  have hpv := parseValue_dump v t hv ht
  simp only [memberChars, qstrChars, List.cons_append, List.append_assoc,
    List.nil_append, List.singleton_append]
  simp only [parseMembers]
  rw [skipWs_ws (by decide), skipWs_ws (by decide), skipWs_ws (by decide),
    skipWs_not (by decide)]
  simp only [headTail, Option.some_bind]
  rw [if_pos (by decide)]
  rw [hps]
  simp only [Option.some_bind]
  rw [skipWs_not (by decide)]
  simp only [headTail, Option.some_bind]
  rw [if_pos (by decide)]
  rw [skipWs_ws (by decide), skipWs_dumpVal v t, hpv]
  simp only [Option.some_bind, string_mk_data]

theorem parseMembers_encode (cfg : Config) : ∀ (fuel : Nat) (rest : List Char),
    goodCfgB cfg = true → cfg ≠ [] → cfg.length ≤ fuel →
    parseMembers fuel (membersChars cfg ++ '\n' :: '}' :: rest) = some (cfg, rest) := by
  induction cfg with
  | nil =>
    intro fuel rest _ hne _
    exact absurd rfl hne
  | cons kv tl ih =>
    intro fuel rest hg hne hfuel
    obtain ⟨k, v⟩ := kv
    have hg2 := hg
    simp only [goodCfgB, List.all_cons, Bool.and_eq_true] at hg2
    have hgk : goodStrB k = true := hg2.1.1
    have hgv : goodValB v = true := hg2.1.2
    have hgtl : goodCfgB tl = true := hg2.2
    match fuel, hfuel with
    | f + 1, hfuel =>
    cases tl with
    | nil =>
      simp only [membersChars]
      rw [parseMembers_step f k v ('\n' :: '}' :: rest) hgk hgv
        (by intro d hd; simp at hd; subst hd; decide)]
      rw [skipWs_ws (by decide), skipWs_not (by decide)]
      simp [headTail]
    | cons kv2 tl2 =>
      have hmc : membersChars ((k, v) :: kv2 :: tl2) =
          memberChars (k, v) ++ ',' :: membersChars (kv2 :: tl2) := rfl
      rw [hmc, List.append_assoc, List.cons_append]
      rw [parseMembers_step f k v _ hgk hgv (by intro d hd; simp at hd; subst hd; decide)]
      rw [skipWs_not (by decide)]
      simp only [headTail, Option.some_bind]
      rw [if_pos (by decide)]
      rw [ih f rest hgtl (by simp) (by simp at hfuel ⊢; omega)]
      rfl

theorem length_le_membersChars (cfg : Config) : cfg.length ≤ (membersChars cfg).length := by
  induction cfg with
  | nil => simp [membersChars]
  | cons kv tl ih =>
    cases tl with
    | nil =>
      simp [membersChars, memberChars]
    | cons kv2 tl2 =>
      simp only [membersChars, List.length_append, List.length_cons] at ih ⊢
      omega

theorem skipWs_members_head (kv : String × JVal) (tl : Config) (X : List Char) :
    ∃ t, skipWs (membersChars (kv :: tl) ++ X) = '"' :: t := by
  obtain ⟨k, v⟩ := kv
  cases tl with
  | nil =>
    simp only [membersChars, memberChars, qstrChars, List.cons_append,
      List.append_assoc, List.nil_append]
    rw [skipWs_ws (by decide), skipWs_ws (by decide), skipWs_ws (by decide),
      skipWs_not (by decide)]
    exact ⟨_, rfl⟩
  | cons kv2 tl2 =>
    simp only [membersChars, memberChars, qstrChars, List.cons_append,
      List.append_assoc, List.nil_append]
    rw [skipWs_ws (by decide), skipWs_ws (by decide), skipWs_ws (by decide),
      skipWs_not (by decide)]
    exact ⟨_, rfl⟩

theorem read_config_dumps (cfg : Config) (h : goodCfgB cfg = true) :
    read_config (dumps cfg) = some cfg := by
  cases cfg with
  | nil => rfl
  | cons kv tl =>
    have hdata : (dumps (kv :: tl)).data =
        '{' :: (membersChars (kv :: tl) ++ ['\n', '}']) := rfl
    have hlen := length_le_membersChars (kv :: tl)
    have henc := parseMembers_encode (kv :: tl)
      ((dumps (kv :: tl)).data.length + 1) [] h (by simp)
      (by
        rw [hdata]
        simp only [List.length_cons, List.length_append] at hlen ⊢
        omega)
    obtain ⟨t, ht⟩ := skipWs_members_head kv tl ['\n', '}']
    rw [hdata] at henc
    simp only [read_config, hdata]
    rw [skipWs_not (by decide)]
    simp only [headTail, Option.some_bind]
    rw [if_pos (by decide)]
    rw [ht]
    simp only [headTail, Option.some_bind]
    rw [if_neg (by decide)]
    rw [henc]
    simp [skipWs]

/-! ## C8: the IP resolver strips trailing whitespace only -/

/-- C8 (counterexample): the claim says the response body is returned with
*surrounding* (leading and trailing) whitespace stripped.  On the body
`" 1.2.3.4\n"` the code (`str.rstrip()`) returns `" 1.2.3.4"`, keeping the
leading space, while stripping both sides would give `"1.2.3.4"`. -/
theorem get_ip_not_strip_both :
    get_ip " 1.2.3.4\n" = " 1.2.3.4" ∧ strip_both " 1.2.3.4\n" = "1.2.3.4" ∧
      get_ip " 1.2.3.4\n" ≠ strip_both " 1.2.3.4\n" := by
  refine ⟨rfl, rfl, ?_⟩
  decide

/-- C8 (amended): `get_ip` returns the response body with *trailing*
whitespace and newlines stripped (leading whitespace is preserved); the body
splits as the returned string followed by whitespace, the returned string
does not end in whitespace, and any string not ending in whitespace — IP
literal or not, no validation — is returned verbatim. -/
theorem get_ip_strips_trailing (s : String) :
    (∃ w, s.data = (get_ip s).data ++ w ∧ ∀ c ∈ w, isPySpace c = true) ∧
    (∀ c, (get_ip s).data.getLast? = some c → isPySpace c = false) ∧
    (∀ t : String, (∀ c, t.data.getLast? = some c → isPySpace c = false) →
      get_ip t = t) := by
  refine ⟨⟨(s.data.reverse.takeWhile isPySpace).reverse, ?_, ?_⟩, ?_, ?_⟩
  · show s.data = (s.data.reverse.dropWhile isPySpace).reverse ++ _
    rw [← List.reverse_append, List.takeWhile_append_dropWhile, List.reverse_reverse]
  · intro c hc
    rw [List.mem_reverse] at hc
    exact List.mem_takeWhile_imp hc
  · intro c hc
    have hc2 : (s.data.reverse.dropWhile isPySpace).reverse.getLast? = some c := hc
    rw [List.getLast?_reverse] at hc2
    exact head?_dropWhile_false hc2
  · intro t ht
    show rstrip t = t
    obtain ⟨td⟩ := t
    show (⟨(td.reverse.dropWhile isPySpace).reverse⟩ : String) = ⟨td⟩
    cases h : td.reverse with
    | nil =>
      have hd : td = [] := by simpa using congrArg List.reverse h
      subst hd
      rfl
    | cons c cs =>
      have hlast : td.getLast? = some c := by
        rw [← List.head?_reverse, h]
        rfl
      have hc := ht c hlast
      have hstop : List.dropWhile isPySpace (c :: cs) = c :: cs := by
        simp [List.dropWhile_cons, hc]
      rw [hstop, ← h, List.reverse_reverse]

/-- Witness for C8 (amended): a string with no trailing whitespace — not an
IP literal, showing the absence of validation — is returned verbatim. -/
theorem get_ip_strips_trailing_witness :
    get_ip "not an ip" = "not an ip" :=
  (get_ip_strips_trailing "x").2.2 "not an ip" (by decide)

/-! ## C1: `lastIP` is persisted iff the DNS update succeeded -/

/-- Claim C1: in every completed run, the configuration is persisted iff the
record-edit POST was issued and answered with status 200; the persisted
document's `lastIP` is the resolved current IP; and when nothing is saved
the configuration file is untouched. -/
theorem saved_iff_edit_success (config : Config) (ipText : String) (status : Nat)
    (r : RunResult) (h : main config ipText status = .ok r) :
    (r.saved ≠ none ↔ r.editCalls ≠ [] ∧ status = 200) ∧
    (∀ c, r.saved = some c → pyGet c "lastIP" = .ok (.jstr (get_ip ipText))) ∧
    (r.saved = none → ∀ fs, fileAfter r fs = fs) := by
  cases h1 : pyGet config "healthchecksUUID" with
  | error k => simp [main, h1] at h
  | ok uuid =>
  cases h2 : pyGet config "domain" with
  | error k => simp [main, h1, h2] at h
  | ok domain =>
  cases h3 : pyGet config "lastIP" with
  | error k => simp [main, h1, h2, h3] at h
  | ok last =>
  by_cases hne : pyStrNe (get_ip ipText) last = true
  · cases h4 : pyGet config "apikey" with
    | error k => simp [main, h1, h2, h3, hne, h4] at h
    | ok ak =>
    cases h5 : pyGet config "secretapikey" with
    | error k => simp [main, h1, h2, h3, hne, h4, h5] at h
    | ok sk =>
    by_cases hst : status = 200
    · have hm : main config ipText status = .ok
          { exitCode := 0,
            editCalls := [(edit_record domain
              [("apikey", ak), ("secretapikey", sk),
               ("content", .jstr (get_ip ipText)), ("ttl", .jint 600)] status).2],
            saved := some (setKey config "lastIP" (.jstr (get_ip ipText))),
            pings := if truthy uuid then
                [ping_healthchecks uuid
                  ("Updating 'A' record for " ++ pyStr domain ++ " with " ++ get_ip ipText)]
              else [] } := by
        simp [main, h1, h2, h3, hne, h4, h5, hst, edit_record]
      rw [hm] at h
      injection h with h
      subst h
      refine ⟨by simp [hst], ?_, by simp⟩
      intro c hc
      simp only [Option.some.injEq] at hc
      rw [← hc]
      exact pyGet_setKey_self config "lastIP" (.jstr (get_ip ipText))
    · have hb : (status == 200) = false := by simp [hst]
      have hm : main config ipText status = .ok
          { exitCode := 1,
            editCalls := [(edit_record domain
              [("apikey", ak), ("secretapikey", sk),
               ("content", .jstr (get_ip ipText)), ("ttl", .jint 600)] status).2],
            saved := none, pings := [] } := by
        simp [main, h1, h2, h3, hne, h4, h5, edit_record, hb]
      rw [hm] at h
      injection h with h
      subst h
      exact ⟨by simp [hst], by simp, fun _ fs => by simp [fileAfter]⟩
  · have hm : main config ipText status = .ok
        { exitCode := 0, editCalls := [], saved := none,
          pings := if truthy uuid then [ping_healthchecks uuid "No change"] else [] } := by
      simp [main, h1, h2, h3, hne]
    rw [hm] at h
    injection h with h
    subst h
    exact ⟨by simp, by simp, fun _ fs => by simp [fileAfter]⟩

/-- Witness for C1: a successful update run over `cfgFull` persists a
document whose `lastIP` is the resolved IP. -/
theorem saved_iff_edit_success_witness :
    (some (setKey cfgFull "lastIP" (JVal.jstr (get_ip "5.6.7.8\n"))) ≠
      (none : Option Config)) ∧
    pyGet (setKey cfgFull "lastIP" (JVal.jstr (get_ip "5.6.7.8\n"))) "lastIP" =
      .ok (.jstr (get_ip "5.6.7.8\n")) := by
  have h := saved_iff_edit_success cfgFull "5.6.7.8\n" 200
      { exitCode := 0,
        editCalls := [(edit_record (.jstr "example.com")
          [("apikey", .jstr "pk1"), ("secretapikey", .jstr "sk1"),
           ("content", .jstr (get_ip "5.6.7.8\n")), ("ttl", .jint 600)] 200).2],
        saved := some (setKey cfgFull "lastIP" (.jstr (get_ip "5.6.7.8\n"))),
        pings := [ping_healthchecks (.jstr "u-1")
          ("Updating 'A' record for example.com with " ++ get_ip "5.6.7.8\n")] } rfl
  exact ⟨h.1.mpr ⟨by simp, rfl⟩, h.2.1 _ rfl⟩

/-! ## C2: a failed DNS update short-circuits the run -/

/-- Claim C2: when the record-edit POST is answered with a status other than
200, the run returns 1, nothing is saved, no liveness ping is sent (whatever
the `healthchecksUUID` value is), and the configuration file is untouched. -/
theorem failure_short_circuit (config : Config) (ipText : String) (status : Nat)
    (uuid domain last ak sk : JVal)
    (h1 : pyGet config "healthchecksUUID" = .ok uuid)
    (h2 : pyGet config "domain" = .ok domain)
    (h3 : pyGet config "lastIP" = .ok last)
    (h4 : pyGet config "apikey" = .ok ak)
    (h5 : pyGet config "secretapikey" = .ok sk)
    (hne : pyStrNe (get_ip ipText) last = true)
    (hfail : status ≠ 200) :
    main config ipText status = .ok
      { exitCode := 1,
        editCalls := [(edit_record domain
          [("apikey", ak), ("secretapikey", sk),
           ("content", .jstr (get_ip ipText)), ("ttl", .jint 600)] status).2],
        saved := none, pings := [] } ∧
    (∀ r fs, main config ipText status = .ok r → fileAfter r fs = fs) := by
  have hb : (status == 200) = false := by simp [hfail]
  have hm : main config ipText status = .ok
      { exitCode := 1,
        editCalls := [(edit_record domain
          [("apikey", ak), ("secretapikey", sk),
           ("content", .jstr (get_ip ipText)), ("ttl", .jint 600)] status).2],
        saved := none, pings := [] } := by
    simp [main, h1, h2, h3, h4, h5, hne, edit_record, hb]
  refine ⟨hm, ?_⟩
  intro r fs hr
  rw [hm] at hr
  injection hr with hr
  rw [← hr]
  simp [fileAfter]

/-- Witness for C2: a rejected update (status 404) over `cfgFull`. -/
theorem failure_short_circuit_witness :
    main cfgFull "5.6.7.8\n" 404 = .ok
      { exitCode := 1,
        editCalls := [(edit_record (.jstr "example.com")
          [("apikey", .jstr "pk1"), ("secretapikey", .jstr "sk1"),
           ("content", .jstr (get_ip "5.6.7.8\n")), ("ttl", .jint 600)] 404).2],
        saved := none, pings := [] } ∧
    fileAfter
      { exitCode := 1,
        editCalls := [(edit_record (.jstr "example.com")
          [("apikey", .jstr "pk1"), ("secretapikey", .jstr "sk1"),
           ("content", .jstr (get_ip "5.6.7.8\n")), ("ttl", .jint 600)] 404).2],
        saved := none, pings := [] } (some "old") = some "old" := by
  have h := failure_short_circuit cfgFull "5.6.7.8\n" 404
      (.jstr "u-1") (.jstr "example.com") (.jstr "1.2.3.4") (.jstr "pk1") (.jstr "sk1")
      rfl rfl rfl rfl rfl (by decide) (by decide)
  exact ⟨h.1, h.2 _ _ h.1⟩

/-! ## C3: the no-op path touches nothing -/

/-- Claim C3: when the resolved IP equals `lastIP`, the record-edit POST is
never issued, nothing is saved, the configuration file is untouched, and the
run returns 0. -/
theorem noop_run (config : Config) (ipText : String) (status : Nat)
    (uuid domain last : JVal)
    (h1 : pyGet config "healthchecksUUID" = .ok uuid)
    (h2 : pyGet config "domain" = .ok domain)
    (h3 : pyGet config "lastIP" = .ok last)
    (heq : pyStrNe (get_ip ipText) last = false) :
    main config ipText status =
      .ok { exitCode := 0, editCalls := [], saved := none,
            pings := if truthy uuid then [ping_healthchecks uuid "No change"] else [] } ∧
    (∀ r fs, main config ipText status = .ok r → fileAfter r fs = fs) := by
  have hm : main config ipText status =
      .ok { exitCode := 0, editCalls := [], saved := none,
            pings := if truthy uuid then [ping_healthchecks uuid "No change"] else [] } := by
    simp [main, h1, h2, h3, heq]
  refine ⟨hm, ?_⟩
  intro r fs hr
  rw [hm] at hr
  injection hr with hr
  rw [← hr]
  simp [fileAfter]

/-- Witness for C3: `lastIP = "1.2.3.4"`, resolved IP `"1.2.3.4"`. -/
theorem noop_run_witness :
    main cfgFull "1.2.3.4\n" 200 =
      .ok { exitCode := 0, editCalls := [], saved := none,
            pings := [{ url := "https://hc-ping.com/u-1", body := "No change" }] } ∧
    fileAfter
      { exitCode := 0, editCalls := [], saved := none,
        pings := [{ url := "https://hc-ping.com/u-1", body := "No change" }] }
      (some "old") = some "old" := by
  have h := noop_run cfgFull "1.2.3.4\n" 200
      (.jstr "u-1") (.jstr "example.com") (.jstr "1.2.3.4") rfl rfl rfl (by decide)
  exact ⟨h.1, h.2 _ _ h.1⟩

/-! ## C4: the process exit status

`main()` returns 1 on a rejected update, but the `__main__` guard calls
`main()` without passing the return value to `sys.exit`, so the interpreter
exits with status 0 on every completed run. -/

/-- Claim C4 (code bug): on a rejected update `main` returns 1 as designed,
yet the process exit status is 0, because the `__main__` guard discards the
return value of `main()`. -/
theorem exit_status_discarded :
    main cfgFull "5.6.7.8\n" 400 = .ok
      { exitCode := 1,
        editCalls := [{
          url :=
            "https://api-ipv4.porkbun.com/api/json/v3/dns/editByNameType/example.com/A/",
          payload := [("apikey", .jstr "pk1"), ("secretapikey", .jstr "sk1"),
                      ("content", .jstr "5.6.7.8"), ("ttl", .jint 600)] }],
        saved := none, pings := [] } ∧
    run_script cfgFull "5.6.7.8\n" 400 = some 0 :=
  ⟨rfl, rfl⟩

/-! ## C5: liveness gating -/

/-- Claim C5 (counterexample): the no-op status message the liveness ping
carries is `"No change"`, capitalised — not the string `"no change"` the
claim states. -/
theorem noop_ping_not_lowercase :
    main cfgFull "1.2.3.4\n" 200 =
      .ok { exitCode := 0, editCalls := [], saved := none,
            pings := [{ url := "https://hc-ping.com/u-1", body := "No change" }] } ∧
    "No change" ≠ "no change" :=
  ⟨rfl, by decide⟩

/-- Claim C5 (amended): in every run that returns 0, the liveness ping is
sent iff `healthchecksUUID` is non-empty, at most (hence, with the iff,
exactly) once, to the URL templated with the UUID, carrying `"No change"` on
the no-op branch and the update-description string naming the domain and
the new IP on the update branch. -/
theorem liveness_gating (config : Config) (ipText : String) (status : Nat)
    (u : String) (dv : JVal) (r : RunResult)
    (hu : pyGet config "healthchecksUUID" = .ok (.jstr u))
    (hd : pyGet config "domain" = .ok dv)
    (hm : main config ipText status = .ok r)
    (hexit : r.exitCode = 0) :
    (r.pings = [] ↔ u = "") ∧
    r.pings.length ≤ 1 ∧
    (∀ p ∈ r.pings,
      p.url = "https://hc-ping.com/" ++ u ∧
      (r.editCalls = [] → p.body = "No change") ∧
      (r.editCalls ≠ [] →
        p.body = "Updating 'A' record for " ++ pyStr dv ++ " with " ++ get_ip ipText)) := by
  cases h3 : pyGet config "lastIP" with
  | error k => simp [main, hu, hd, h3] at hm
  | ok last =>
  by_cases hne : pyStrNe (get_ip ipText) last = true
  · cases h4 : pyGet config "apikey" with
    | error k => simp [main, hu, hd, h3, hne, h4] at hm
    | ok ak =>
    cases h5 : pyGet config "secretapikey" with
    | error k => simp [main, hu, hd, h3, hne, h4, h5] at hm
    | ok sk =>
    by_cases hst : status = 200
    · have hm2 : main config ipText status = .ok
          { exitCode := 0,
            editCalls := [(edit_record dv
              [("apikey", ak), ("secretapikey", sk),
               ("content", .jstr (get_ip ipText)), ("ttl", .jint 600)] status).2],
            saved := some (setKey config "lastIP" (.jstr (get_ip ipText))),
            pings := if truthy (.jstr u) then
                [ping_healthchecks (.jstr u)
                  ("Updating 'A' record for " ++ pyStr dv ++ " with " ++ get_ip ipText)]
              else [] } := by
        simp [main, hu, hd, h3, hne, h4, h5, hst, edit_record]
      rw [hm2] at hm
      injection hm with hm
      subst hm
      by_cases hu0 : u = ""
      · simp [truthy, hu0]
      · have ht : truthy (.jstr u) = true := by simp [truthy, hu0]
        refine ⟨by simp [ht, hu0], by simp [ht], ?_⟩
        intro p hp
        simp only [ht, if_true, List.mem_singleton] at hp
        subst hp
        exact ⟨rfl, by simp, fun _ => rfl⟩
    · have hb : (status == 200) = false := by simp [hst]
      have hm2 : main config ipText status = .ok
          { exitCode := 1,
            editCalls := [(edit_record dv
              [("apikey", ak), ("secretapikey", sk),
               ("content", .jstr (get_ip ipText)), ("ttl", .jint 600)] status).2],
            saved := none, pings := [] } := by
        simp [main, hu, hd, h3, hne, h4, h5, edit_record, hb]
      rw [hm2] at hm
      injection hm with hm
      subst hm
      simp at hexit
  · have hm2 : main config ipText status = .ok
        { exitCode := 0, editCalls := [], saved := none,
          pings := if truthy (.jstr u) then
            [ping_healthchecks (.jstr u) "No change"] else [] } := by
      simp [main, hu, hd, h3, hne]
    rw [hm2] at hm
    injection hm with hm
    subst hm
    by_cases hu0 : u = ""
    · simp [truthy, hu0]
    · have ht : truthy (.jstr u) = true := by simp [truthy, hu0]
      refine ⟨by simp [ht, hu0], by simp [ht], ?_⟩
      intro p hp
      simp only [ht, if_true, List.mem_singleton] at hp
      subst hp
      exact ⟨rfl, fun _ => rfl, by simp⟩

/-- Witness for C5 (amended): a no-op run over `cfgFull` pings exactly once,
to the URL templated with the UUID. -/
theorem liveness_gating_witness :
    ([{ url := "https://hc-ping.com/u-1", body := "No change" }] : List PingCall).length ≤ 1 ∧
    ({ url := "https://hc-ping.com/u-1", body := "No change" } : PingCall).url =
      "https://hc-ping.com/" ++ "u-1" := by
  have h := liveness_gating cfgFull "1.2.3.4\n" 200 "u-1" (.jstr "example.com")
      { exitCode := 0, editCalls := [], saved := none,
        pings := [{ url := "https://hc-ping.com/u-1", body := "No change" }] }
      rfl rfl rfl rfl
  exact ⟨h.2.1, (h.2.2 _ (by simp)).1⟩

/-! ## C6: empty vs. absent `healthchecksUUID` -/

/-- Claim C6 (counterexample): when the `healthchecksUUID` key is absent
from the configuration, the run does not proceed normally — the
unconditional `config["healthchecksUUID"]` lookup raises `KeyError` and the
run aborts before resolving the IP. -/
theorem absent_uuid_keyerror :
    main cfgNoUUID "1.2.3.4\n" 200 = .error "healthchecksUUID" :=
  rfl

/-- Claim C6 (amended): an *empty* `healthchecksUUID` disables reporting
and the run otherwise proceeds normally, while an *absent* key fails the
run with a `KeyError`. -/
theorem uuid_empty_or_absent (config : Config) (ipText : String) (status : Nat) :
    (∀ r, pyGet config "healthchecksUUID" = .ok (.jstr "") →
       main config ipText status = .ok r → r.pings = []) ∧
    (∀ e, pyGet config "healthchecksUUID" = .error e →
       main config ipText status = .error e) := by
  constructor
  · intro r hu hm
    cases h2 : pyGet config "domain" with
    | error k => simp [main, hu, h2] at hm
    | ok dv =>
    cases h3 : pyGet config "lastIP" with
    | error k => simp [main, hu, h2, h3] at hm
    | ok last =>
    by_cases hne : pyStrNe (get_ip ipText) last = true
    · cases h4 : pyGet config "apikey" with
      | error k => simp [main, hu, h2, h3, hne, h4] at hm
      | ok ak =>
      cases h5 : pyGet config "secretapikey" with
      | error k => simp [main, hu, h2, h3, hne, h4, h5] at hm
      | ok sk =>
      by_cases hst : status = 200
      · have hm2 : main config ipText status = .ok
            { exitCode := 0,
              editCalls := [(edit_record dv
                [("apikey", ak), ("secretapikey", sk),
                 ("content", .jstr (get_ip ipText)), ("ttl", .jint 600)] status).2],
              saved := some (setKey config "lastIP" (.jstr (get_ip ipText))),
              pings := [] } := by
          simp [main, hu, h2, h3, hne, h4, h5, hst, edit_record, truthy]
        rw [hm2] at hm
        injection hm with hm
        rw [← hm]
      · have hb : (status == 200) = false := by simp [hst]
        have hm2 : main config ipText status = .ok
            { exitCode := 1,
              editCalls := [(edit_record dv
                [("apikey", ak), ("secretapikey", sk),
                 ("content", .jstr (get_ip ipText)), ("ttl", .jint 600)] status).2],
              saved := none, pings := [] } := by
          simp [main, hu, h2, h3, hne, h4, h5, edit_record, hb]
        rw [hm2] at hm
        injection hm with hm
        rw [← hm]
    · have hm2 : main config ipText status = .ok
          { exitCode := 0, editCalls := [], saved := none, pings := [] } := by
        simp [main, hu, h2, h3, hne, truthy]
      rw [hm2] at hm
      injection hm with hm
      rw [← hm]
  · intro e hu
    simp [main, hu]

/-- Witness for C6 (amended): a successful update run with an empty UUID
sends no ping, and the run over `cfgNoUUID` raises the `KeyError`. -/
theorem uuid_empty_or_absent_witness :
    ({ exitCode := 0,
       editCalls := [(edit_record (.jstr "example.com")
         [("apikey", .jstr "pk1"), ("secretapikey", .jstr "sk1"),
          ("content", .jstr "5.6.7.8"), ("ttl", .jint 600)] 200).2],
       saved := some (setKey cfgEmptyUUID "lastIP" (.jstr "5.6.7.8")),
       pings := [] } : RunResult).pings = [] ∧
    main cfgNoUUID "1.2.3.4\n" 200 = .error "healthchecksUUID" := by
  refine ⟨?_, ?_⟩
  · exact (uuid_empty_or_absent cfgEmptyUUID "5.6.7.8\n" 200).1 _ rfl rfl
  · exact (uuid_empty_or_absent cfgNoUUID "1.2.3.4\n" 200).2 "healthchecksUUID" rfl

/-! ## C7: the shape of the update request -/

/-- Claim C7: an update run issues exactly one record-edit POST, to the
A-record endpoint of the configured domain, whose payload carries the
credentials, `content` equal to the resolved IP and `ttl` equal to 600;
`edit_record` answers true iff the provider status is 200, judged by the
status code alone, and the run returns 0 or 1 accordingly. -/
theorem update_request_shape (config : Config) (ipText : String) (status : Nat)
    (uuid dv last ak sk : JVal)
    (h1 : pyGet config "healthchecksUUID" = .ok uuid)
    (h2 : pyGet config "domain" = .ok dv)
    (h3 : pyGet config "lastIP" = .ok last)
    (h4 : pyGet config "apikey" = .ok ak)
    (h5 : pyGet config "secretapikey" = .ok sk)
    (hne : pyStrNe (get_ip ipText) last = true) :
    main config ipText status = .ok
      { exitCode := if status = 200 then 0 else 1,
        editCalls := [{
          url := api_base_url ++ "/dns/editByNameType/" ++ pyStr dv ++ "/A/",
          payload := [("apikey", ak), ("secretapikey", sk),
                      ("content", .jstr (get_ip ipText)), ("ttl", .jint 600)] }],
        saved := if status = 200 then
            some (setKey config "lastIP" (.jstr (get_ip ipText)))
          else none,
        pings := if status = 200 then
            (if truthy uuid then
              [ping_healthchecks uuid
                ("Updating 'A' record for " ++ pyStr dv ++ " with " ++ get_ip ipText)]
            else [])
          else [] } ∧
    ((edit_record dv
        [("apikey", ak), ("secretapikey", sk),
         ("content", .jstr (get_ip ipText)), ("ttl", .jint 600)] status).1 = true ↔
      status = 200) := by
  by_cases hst : status = 200
  · refine ⟨?_, by simp [edit_record, hst]⟩
    simp [main, h1, h2, h3, hne, h4, h5, hst, edit_record]
  · have hb : (status == 200) = false := by simp [hst]
    refine ⟨?_, by simp [edit_record, hb, hst]⟩
    simp [main, h1, h2, h3, hne, h4, h5, edit_record, hb, hst]

/-- Witness for C7: the update run over `cfgFull` with provider status 200. -/
theorem update_request_shape_witness :
    main cfgFull "5.6.7.8\n" 200 = .ok
      { exitCode := if 200 = 200 then 0 else 1,
        editCalls := [{
          url := api_base_url ++ "/dns/editByNameType/" ++ pyStr (.jstr "example.com") ++ "/A/",
          payload := [("apikey", .jstr "pk1"), ("secretapikey", .jstr "sk1"),
                      ("content", .jstr (get_ip "5.6.7.8\n")), ("ttl", .jint 600)] }],
        saved := if 200 = 200 then
            some (setKey cfgFull "lastIP" (.jstr (get_ip "5.6.7.8\n")))
          else none,
        pings := if 200 = 200 then
            (if truthy (.jstr "u-1") then
              [ping_healthchecks (.jstr "u-1")
                ("Updating 'A' record for " ++ pyStr (.jstr "example.com") ++
                  " with " ++ get_ip "5.6.7.8\n")]
            else [])
          else [] } ∧
    ((edit_record (.jstr "example.com")
        [("apikey", .jstr "pk1"), ("secretapikey", .jstr "sk1"),
         ("content", .jstr (get_ip "5.6.7.8\n")), ("ttl", .jint 600)] 200).1 = true ↔
      (200 : Nat) = 200) :=
  update_request_shape cfgFull "5.6.7.8\n" 200
    (.jstr "u-1") (.jstr "example.com") (.jstr "1.2.3.4") (.jstr "pk1") (.jstr "sk1")
    rfl rfl rfl rfl rfl (by decide)

/-! ## C9: credentials are read lazily, the other keys unconditionally -/

/-- Claim C9: a run whose resolved IP equals `lastIP` completes with status
0 without ever reading `apikey` or `secretapikey` (no hypothesis about them
is needed), while a missing `healthchecksUUID`, `domain` or `lastIP` key
aborts every run with the corresponding `KeyError`. -/
theorem lazy_credentials (config : Config) (ipText : String) (status : Nat) :
    (∀ uuid dv last, pyGet config "healthchecksUUID" = .ok uuid →
        pyGet config "domain" = .ok dv → pyGet config "lastIP" = .ok last →
        pyStrNe (get_ip ipText) last = false →
        main config ipText status =
          .ok { exitCode := 0, editCalls := [], saved := none,
                pings := if truthy uuid then
                  [ping_healthchecks uuid "No change"] else [] }) ∧
    (∀ e, pyGet config "healthchecksUUID" = .error e →
        main config ipText status = .error e) ∧
    (∀ uuid e, pyGet config "healthchecksUUID" = .ok uuid →
        pyGet config "domain" = .error e → main config ipText status = .error e) ∧
    (∀ uuid dv e, pyGet config "healthchecksUUID" = .ok uuid →
        pyGet config "domain" = .ok dv → pyGet config "lastIP" = .error e →
        main config ipText status = .error e) := by
  refine ⟨?_, ?_, ?_, ?_⟩
  · intro uuid dv last h1 h2 h3 heq
    simp [main, h1, h2, h3, heq]
  · intro e h1
    simp [main, h1]
  · intro uuid e h1 h2
    simp [main, h1, h2]
  · intro uuid dv e h1 h2 h3
    simp [main, h1, h2, h3]

/-- Witness for C9: `cfgNoCreds` has no credential keys, yet its no-op run
completes with status 0. -/
theorem lazy_credentials_witness :
    main cfgNoCreds "1.2.3.4\n" 200 =
      .ok { exitCode := 0, editCalls := [], saved := none,
            pings := if truthy (.jstr "u-1") then
              [ping_healthchecks (.jstr "u-1") "No change"] else [] } :=
  (lazy_credentials cfgNoCreds "1.2.3.4\n" 200).1
    (.jstr "u-1") (.jstr "example.com") (.jstr "1.2.3.4") rfl rfl rfl (by decide)

/-! ## C10: saving then loading round-trips -/

/-- Claim C10: for every configuration (with printable-ASCII keys and
string values), loading the file written by `save_config` returns a document
equal to the one saved, and `save_config` fully overwrites the previous
on-disk content (the written file does not depend on it). -/
theorem save_read_roundtrip (cfg : Config) (h : goodCfgB cfg = true) :
    read_config (save_config cfg) = some cfg ∧
    (∀ old : Option String, save_config_fs cfg old = some (save_config cfg)) :=
  ⟨read_config_dumps cfg h, fun _ => rfl⟩

/-- Witness for C10: `cfgRound` holds every scalar kind, quotes and a
backslash in a string, and a negative integer. -/
theorem save_read_roundtrip_witness :
    goodCfgB cfgRound = true ∧
    read_config (save_config cfgRound) = some cfgRound ∧
    save_config_fs cfgRound (some "previous") = some (save_config cfgRound) :=
  ⟨by decide, (save_read_roundtrip cfgRound (by decide)).1,
   (save_read_roundtrip cfgRound (by decide)).2 (some "previous")⟩

end PorkbunDdns
